import Mathlib

/-!
# IndexPaginate-go: users, groups and edges walked through a paginated index

A shallow embedding of `main.go`.  The FaunaDB driver (`f.`) is outside the
repository, so the client is a state-passing query function
`σ → Expr → QueryResult × σ` and the decoder behind `Get(&edges)` is a
parameter that receives the value and what the slice `edges` holds; the query
expressions that the program builds are data.
Go's `int` is `Int`; no arithmetic of the program can overflow (every sum is
`i + 1` for a slice index `i`, or `rand.Intn(n) + 1 ≤ n`).
-/

namespace IndexPaginate

/-! ## Records (`main.go` 24-35) -/

/-- Record `User`, stored under the field name `id`. -/
structure User where
  ID : Int
deriving DecidableEq, Repr

/-- Record `Group`, stored under the field name `id`. -/
structure Group where
  ID : Int
deriving DecidableEq, Repr

/-- Record `Edge`, stored under the field names `user_id` and `group_id`. -/
structure Edge where
  User_ID : Int
  Group_ID : Int
deriving DecidableEq, Repr

/-! ## Driver values, errors and query expressions -/

/-- Values of the driver (`f.Value`): what a query returns and what a cursor is. -/
inductive Value where
  | NullV
  | LongV (n : Int)
  | StringV (s : String)
  | ArrayV (items : List Value)
  | ObjectV (fields : List (String × Value))

/-- A Go `error` value. -/
structure GoError where
  msg : String
deriving DecidableEq, Repr

/-- The pair `(res, err)` returned by `client.Query`. -/
abbrev QueryResult := Except GoError Value

/-- Field extraction `v.At(f.ObjKey(key))`: the value under `key` of an object,
an invalid field (an error) for a missing key or a value that is no object. -/
def Value.At (key : String) : Value → Except GoError Value
  | .ObjectV fields =>
    match fields.lookup key with
    | some v => .ok v
    | none => .error ⟨"object key not found"⟩
  | _ => .error ⟨"not an object"⟩

/-- Encoding of a `User` by its field tags. -/
def User.toValue (u : User) : Value := .ObjectV [("id", .LongV u.ID)]

/-- Encoding of a `Group` by its field tags. -/
def Group.toValue (g : Group) : Value := .ObjectV [("id", .LongV g.ID)]

/-- Encoding of an `Edge` by its field tags. -/
def Edge.toValue (e : Edge) : Value :=
  .ObjectV [("user_id", .LongV e.User_ID), ("group_id", .LongV e.Group_ID)]

/-- The optional parameters of `f.Paginate` used by the program:
`f.After(cursor)` and `f.Size(pageSize)`. -/
structure PaginateOpts where
  after : Option Value
  size : Option Int

/-- Specification handed to `f.CreateIndex`: the keys `name`, `source`,
`unique` (false when the key is absent) and `terms`, each term being the field
path of its `field` key. -/
structure IndexSpec where
  name : String
  source : String
  unique : Bool
  terms : List (List String)
deriving DecidableEq, Repr

/-- Query expressions (`f.Expr`) that the program builds. -/
inductive Expr where
  | Lit (v : Value)
  | Var (name : String)
  | Index (name : String)
  | Class (name : String)
  | MatchTerm (ref : Expr) (term : Expr)
  | Paginate (set : Expr) (opts : PaginateOpts)
  | Get (ref : Expr)
  | Select (path : String) (src : Expr)
  | Lambda (var : String) (body : Expr)
  | Map (coll : Expr) (lambda : Expr)
  | Create (ref : Expr) (params : Expr)
  | Obj (fields : List (String × Expr))
  | CreateIndex (spec : IndexSpec)
  | Do (exprs : List Expr)

/-- The driver's `Get(&edges)` into a `[]Edge` target: from the value and what
the slice holds, an error or what the slice holds afterwards. -/
abbrev Decoder := Value → List Edge → Except GoError (List Edge)

/-- A client: `client.Query` against a store whose state is passed explicitly. -/
structure FaunaClient (σ : Type) where
  Query : σ → Expr → QueryResult × σ

/-! ## `paginateCustomers` (`main.go` 91-106) -/

/-- The expression of `paginateCustomers` for a page size `pageSize`; the
cursor `nil` is `none`. -/
def paginateSized (pageSize : Int) (indexToUse : String) (targetUser : Int)
    (cursor : Option Value) : Expr :=
  match cursor with
  | none =>
    .Paginate (.MatchTerm (.Index indexToUse) (.Lit (.LongV targetUser)))
      { after := none, size := some pageSize }
  | some c =>
    .Paginate (.MatchTerm (.Index indexToUse) (.Lit (.LongV targetUser)))
      { after := some c, size := some pageSize }

/-- Function `paginateCustomers`: `pageSize := 16`. -/
def paginateCustomers (indexToUse : String) (targetUser : Int) (cursor : Option Value) : Expr :=
  paginateSized 16 indexToUse targetUser cursor

/-! ## `getUserGroups` (`main.go` 64-89) -/

/-- How a call ends: it returns, it panics with an error, or the model ran out
of fuel while the loop was still running. -/
inductive Outcome where
  | returned
  | panicked (err : GoError)
  | outOfFuel
deriving DecidableEq, Repr

/-- What a run of `getUserGroups` did: how it ended, the edges printed by
`log.Println` in order, the local `cursorPos` when it ended, every query issued
with the answer it got, and the store afterwards. -/
structure Run (σ : Type) where
  outcome : Outcome
  log : List Edge
  cursorPos : Option Value
  trace : List (Expr × QueryResult)
  store : σ

/-- The query of one iteration: the page mapped to the `data` of each entry. -/
def pageQuery (pageSize : Int) (targetUser : Int) (cursorPos : Option Value) : Expr :=
  .Map (paginateSized pageSize "edges_user_groups" targetUser cursorPos)
    (.Lambda "x" (.Select "data" (.Get (.Var "x"))))

/-- The statement `res.At(f.ObjKey("data")).Get(&edges)` when `edges` holds
`prev`: an invalid field is an error, otherwise the decoder runs on the data. -/
def getData (decode : Decoder) (res : Value) (prev : List Edge) : Except GoError (List Edge) :=
  (res.At "data").bind (fun v => decode v prev)

/-- The `for` loop of `getUserGroups`, one iteration per unit of fuel, from
the store state, the local `cursorPos` and the local `edges`, which is declared
once before the loop and decoded into by every iteration.  A query error and a
decode error panic before anything is printed for the page; otherwise the
`range` loop prints what `edges` now holds.  The assignment
`cursorPos, err = ...GetValue()` leaves `nil` in `cursorPos` when the field
`after` is invalid, and the loop breaks. -/
def getUserGroupsLoop {σ : Type} (client : FaunaClient σ) (decode : Decoder)
    (pageSize : Int) (targetUser : Int) :
    Nat → σ → Option Value → List Edge → Run σ
  | 0, s, cursorPos, _ =>
    { outcome := .outOfFuel, log := [], cursorPos := cursorPos, trace := [], store := s }
  | fuel + 1, s, cursorPos, edges =>
    let q := pageQuery pageSize targetUser cursorPos
    let answer := client.Query s q
    match answer.1 with
    | .error err =>
      { outcome := .panicked err, log := [], cursorPos := cursorPos,
        trace := [(q, answer.1)], store := answer.2 }
    | .ok res =>
      match getData decode res edges with
      | .error err =>
        { outcome := .panicked err, log := [], cursorPos := cursorPos,
          trace := [(q, answer.1)], store := answer.2 }
      | .ok edges2 =>
        match res.At "after" with
        | .error _ =>
          { outcome := .returned, log := edges2, cursorPos := none,
            trace := [(q, answer.1)], store := answer.2 }
        | .ok c =>
          let rest :=
            getUserGroupsLoop client decode pageSize targetUser fuel answer.2 (some c) edges2
          { rest with log := edges2 ++ rest.log, trace := (q, answer.1) :: rest.trace }

/-- The traversal with the page size as a parameter; `cursorPos` and `edges`
start `nil`. -/
def getUserGroupsSized {σ : Type} (client : FaunaClient σ) (decode : Decoder)
    (pageSize : Int) (targetUser : Int) (fuel : Nat) (s : σ) : Run σ :=
  getUserGroupsLoop client decode pageSize targetUser fuel s none []

/-- Function `getUserGroups`: the page size is the 16 of `paginateCustomers`. -/
def getUserGroups {σ : Type} (client : FaunaClient σ) (decode : Decoder) (targetUser : Int)
    (fuel : Nat) (s : σ) : Run σ :=
  getUserGroupsSized client decode 16 targetUser fuel s

/-! ## Setup writers: `createUsers`, `createGroups`, `createEdges`, `createIndexes` -/

/-- What a setup function did: how it ended, every query issued with the answer
it got, the lines it printed for edges, and the store afterwards. -/
structure SetupRun (σ : Type) where
  outcome : Outcome
  queries : List (Expr × QueryResult)
  printed : List (Int × Int)
  store : σ

/-- State of `for i, user := range users`: the slice and the loop variable. -/
structure UsersLoop where
  users : List User
  user : User

/-- One iteration over `users`: the loop variable receives a copy of the
element `i`, and the body `user.ID = i + 1` assigns to that variable. -/
def createUsersStep (st : UsersLoop) (i : Nat) : UsersLoop :=
  let user := st.users.getD i ⟨0⟩
  { st with user := { user with ID := (i : Int) + 1 } }

/-- The slice `users` after `make([]User, numUsers)` and the `range` loop:
the records that `createUsers` puts in its query. -/
def createUsersRecords (numUsers : Nat) : List User :=
  let users := List.replicate numUsers (⟨0⟩ : User)
  ((List.range users.length).foldl createUsersStep ⟨users, ⟨0⟩⟩).users

/-- Function `createUsers` (`main.go` 148-168); `make` panics on a negative length. -/
def createUsers {σ : Type} (client : FaunaClient σ) (numUsers : Int) (s : σ) : SetupRun σ :=
  if numUsers < 0 then
    { outcome := .panicked ⟨"makeslice: len out of range"⟩, queries := [], printed := [], store := s }
  else
    let users := createUsersRecords numUsers.toNat
    let q := Expr.Map (.Lit (.ArrayV (users.map User.toValue)))
      (.Lambda "user" (.Create (.Class "users") (.Obj [("data", .Var "user")])))
    let answer := client.Query s q
    match answer.1 with
    | .error err =>
      { outcome := .panicked err, queries := [(q, answer.1)], printed := [], store := answer.2 }
    | .ok _ =>
      { outcome := .returned, queries := [(q, answer.1)], printed := [], store := answer.2 }

/-- State of `for i, group := range groups`: the slice and the loop variable. -/
structure GroupsLoop where
  groups : List Group
  group : Group

/-- One iteration over `groups`: the loop variable receives a copy of the
element `i`, and the body `group.ID = i + 1` assigns to that variable. -/
def createGroupsStep (st : GroupsLoop) (i : Nat) : GroupsLoop :=
  let group := st.groups.getD i ⟨0⟩
  { st with group := { group with ID := (i : Int) + 1 } }

/-- The slice `groups` after `make([]Group, numGroups)` and the `range` loop:
the records that `createGroups` puts in its query. -/
def createGroupsRecords (numGroups : Nat) : List Group :=
  let groups := List.replicate numGroups (⟨0⟩ : Group)
  ((List.range groups.length).foldl createGroupsStep ⟨groups, ⟨0⟩⟩).groups

/-- Function `createGroups` (`main.go` 126-146). -/
def createGroups {σ : Type} (client : FaunaClient σ) (numGroups : Int) (s : σ) : SetupRun σ :=
  if numGroups < 0 then
    { outcome := .panicked ⟨"makeslice: len out of range"⟩, queries := [], printed := [], store := s }
  else
    let groups := createGroupsRecords numGroups.toNat
    let q := Expr.Map (.Lit (.ArrayV (groups.map Group.toValue)))
      (.Lambda "group" (.Create (.Class "groups") (.Obj [("data", .Var "group")])))
    let answer := client.Query s q
    match answer.1 with
    | .error err =>
      { outcome := .panicked err, queries := [(q, answer.1)], printed := [], store := answer.2 }
    | .ok _ =>
      { outcome := .returned, queries := [(q, answer.1)], printed := [], store := answer.2 }

/-- The query of one iteration of `createEdges`. -/
def createEdgeQuery (edge : Edge) : Expr :=
  .Create (.Class "edges") (.Obj [("data", .Lit edge.toValue)])

/-- The `range` loop of `createEdges` from index `i` with `remaining` elements
left.  `rnd k` is the raw value behind the `k`-th call of `rand.Intn`, which
returns it modulo its argument and panics on an argument that is not positive.
Both results of `client.Query` are discarded. -/
def createEdgesLoop {σ : Type} (client : FaunaClient σ) (rnd : Nat → Nat)
    (numUsers numGroups : Int) : Nat → Nat → σ → SetupRun σ
  | 0, _, s => { outcome := .returned, queries := [], printed := [], store := s }
  | remaining + 1, i, s =>
    if numUsers ≤ 0 then
      { outcome := .panicked ⟨"invalid argument to Intn"⟩, queries := [], printed := [], store := s }
    else if numGroups ≤ 0 then
      { outcome := .panicked ⟨"invalid argument to Intn"⟩, queries := [], printed := [], store := s }
    else
      let edge : Edge :=
        { User_ID := (rnd (2 * i) : Int) % numUsers + 1,
          Group_ID := (rnd (2 * i + 1) : Int) % numGroups + 1 }
      let q := createEdgeQuery edge
      let answer := client.Query s q
      let line := if (i + 1) % 10 = 0 then [(edge.User_ID, edge.Group_ID)] else []
      let rest := createEdgesLoop client rnd numUsers numGroups remaining (i + 1) answer.2
      { rest with queries := (q, answer.1) :: rest.queries, printed := line ++ rest.printed }

/-- Function `createEdges` (`main.go` 108-124). -/
def createEdges {σ : Type} (client : FaunaClient σ) (rnd : Nat → Nat)
    (numEdges numUsers numGroups : Int) (s : σ) : SetupRun σ :=
  if numEdges < 0 then
    { outcome := .panicked ⟨"makeslice: len out of range"⟩, queries := [], printed := [], store := s }
  else
    createEdgesLoop client rnd numUsers numGroups numEdges.toNat 0 s

/-- The five specifications that `createIndexes` hands to `f.CreateIndex`, in order. -/
def createIndexesSpecs : List IndexSpec :=
  [ { name := "users_all", source := "users", unique := false, terms := [] },
    { name := "edges_all", source := "edges", unique := false, terms := [] },
    { name := "edges_user_groups", source := "edges", unique := false,
      terms := [["data", "user_id"]] },
    { name := "edges_group_users", source := "edges", unique := false,
      terms := [["data", "group_id"]] },
    { name := "edge_user_group", source := "edges", unique := true,
      terms := [["data", "user_id", "group_id"]] } ]

/-- Function `createIndexes` (`main.go` 170-202). -/
def createIndexes {σ : Type} (client : FaunaClient σ) (s : σ) : SetupRun σ :=
  let q := Expr.Do (createIndexesSpecs.map Expr.CreateIndex)
  let answer := client.Query s q
  match answer.1 with
  | .error err =>
    { outcome := .panicked err, queries := [(q, answer.1)], printed := [], store := answer.2 }
  | .ok _ =>
    { outcome := .returned, queries := [(q, answer.1)], printed := [], store := answer.2 }

/-! ## Reading an index specification -/

/-- The value of a record at a field path, segment after segment. -/
def Value.atPath : List String → Value → Option Value
  | [], v => some v
  | key :: rest, v =>
    match v.At key with
    | .ok w => Value.atPath rest w
    | .error _ => none

/-- The stored document of an edge: its fields under `data`. -/
def edgeDocument (e : Edge) : Value := .ObjectV [("data", e.toValue)]

/-- Key tuple of a document under an index: its value at each term path. -/
def IndexSpec.keyOf (spec : IndexSpec) (doc : Value) : List (Option Value) :=
  spec.terms.map (fun path => doc.atPath path)

/-- The specification of the index of a given name. -/
def indexNamed (name : String) : Option IndexSpec :=
  createIndexesSpecs.find? (fun spec => spec.name == name)

/-! ## Stores used to run the program on concrete inputs -/

/-- Decoding of one entry into an `Edge`: an object with integer fields
`user_id` and `group_id`. -/
def decodeEdge : Value → Except GoError Edge
  | .ObjectV fields =>
    match fields.lookup "user_id", fields.lookup "group_id" with
    | some (.LongV u), some (.LongV g) => .ok { User_ID := u, Group_ID := g }
    | _, _ => .error ⟨"cannot decode entry into Edge"⟩
  | _ => .error ⟨"cannot decode entry into Edge"⟩

/-- Decoding of the entries of a page, failing on the first entry that fails. -/
def decodeEntries : List Value → Except GoError (List Edge)
  | [] => .ok []
  | v :: rest =>
    match decodeEdge v with
    | .error err => .error err
    | .ok e =>
      match decodeEntries rest with
      | .error err => .error err
      | .ok es => .ok (e :: es)

/-- A sample decoder for `Get(&edges)`: an array whose entries all decode
replaces the slice, a null succeeds and assigns nothing, as in the driver, and
any other value is an error. -/
def decodeEdges : Decoder
  | .ArrayV items, _ => decodeEntries items
  | .NullV, prev => .ok prev
  | _, _ => .error ⟨"cannot decode value into a slice"⟩

/-- A client that answers from a script: the state is the list of answers
still to give, and the query is not looked at. -/
def scriptedClient : FaunaClient (List QueryResult) where
  Query := fun script _ =>
    match script with
    | [] => (.error ⟨"no answer left"⟩, [])
    | r :: rest => (r, rest)

/-- A page value: the `data` array and, when present, the `after` cursor. -/
def pageValue (data : Value) (after : Option Value) : Value :=
  match after with
  | none => .ObjectV [("data", data)]
  | some c => .ObjectV [("data", data), ("after", c)]

/-- Position named by a cursor of `edgeStore`: an integer offset. -/
def cursorOffset : Value → Option Nat
  | .LongV k => if 0 ≤ k then some k.toNat else none
  | _ => none

/-- The page of the entries from offset `p` with up to `n` entries. -/
def pageFrom (entries : List Edge) (p n : Nat) : Value :=
  pageValue (.ArrayV (((entries.drop p).take n).map Edge.toValue))
    (if p + n < entries.length then some (.LongV ((p + n : Nat) : Int)) else none)

/-- A store holding `allEdges` that answers the page queries on the index
`edges_user_groups`: the entries are the edges of the user in stored order, and
a cursor is the offset of the next entry. -/
def edgeStore (allEdges : List Edge) : FaunaClient Unit where
  Query := fun s q =>
    match q with
    | .Map (.Paginate (.MatchTerm (.Index "edges_user_groups") (.Lit (.LongV t)))
        { after := after, size := some n }) _ =>
      let entries := allEdges.filter (fun e => e.User_ID = t)
      match after with
      | none => (.ok (pageFrom entries 0 n.toNat), s)
      | some c =>
        match cursorOffset c with
        | some p => (.ok (pageFrom entries p n.toNat), s)
        | none => (.error ⟨"invalid cursor"⟩, s)
    | _ => (.error ⟨"unsupported query"⟩, s)

/-! ## A store that answers faithfully -/

/-- The answer `res` is the page of `entries` at offset `p` for page size `n`:
its data decodes to the next up-to-`n` entries, whatever the slice held, and it
has an `after` cursor, naming the offset `p + n`, exactly when entries remain. -/
def PageAt (decode : Decoder) (entries : List Edge)
    (pos : Value → Option Nat) (p n : Nat) (res : Value) : Prop :=
  (∀ prev, getData decode res prev = .ok ((entries.drop p).take n)) ∧
  (p + n < entries.length → ∃ c, res.At "after" = .ok c ∧ pos c = some (p + n)) ∧
  (entries.length ≤ p + n → ∀ c, res.At "after" ≠ .ok c)

/-- The store answers every page query for `targetUser` with page size `n`
faithfully, in every state: the first page without a cursor, and the page at
the offset a cursor names. -/
structure FaithfulStore {σ : Type} (client : FaunaClient σ)
    (decode : Decoder) (targetUser : Int)
    (entries : List Edge) (pos : Value → Option Nat) (n : Nat) : Prop where
  first : ∀ s : σ, ∃ res, (client.Query s (pageQuery n targetUser none)).1 = .ok res ∧
    PageAt decode entries pos 0 n res
  next : ∀ (s : σ) (c : Value) (p : Nat), pos c = some p →
    ∃ res, (client.Query s (pageQuery n targetUser (some c))).1 = .ok res ∧
      PageAt decode entries pos p n res

/-! ## Notions used to state the properties -/

/-- The cursor variable stands at offset `p`: no cursor at offset 0, otherwise
a cursor naming `p`. -/
def CursorAt (pos : Value → Option Nat) (cursorPos : Option Value) (p : Nat) : Prop :=
  match cursorPos with
  | none => p = 0
  | some c => pos c = some p

/-- Number of pages of `len` entries from offset `p` with page size `n`. -/
def pagesLeft (len p n : Nat) : Nat := max 1 ((len - p + n - 1) / n)

/-- Three stored edges, two of them of user 6. -/
def sampleEdges : List Edge := [⟨6, 1⟩, ⟨2, 3⟩, ⟨6, 4⟩]

/-- An empty last page. -/
def emptyPage : Value := pageValue (.ArrayV []) none

/-- A page of one edge that carries the cursor `c`. -/
def onePage (e : Edge) (c : Value) : Value := pageValue (.ArrayV [e.toValue]) (some c)

/-- A store with the uniqueness constraint on edges: the state is the list of
stored edges, and creating an edge that is already stored is rejected. -/
def uniqueEdgeStore : FaunaClient (List Edge) where
  Query := fun stored q =>
    match q with
    | .Create (.Class "edges") (.Obj [("data", .Lit v)]) =>
      match decodeEdge v with
      | .ok e =>
        if e ∈ stored then (.error ⟨"instance not unique"⟩, stored)
        else (.ok (edgeDocument e), stored ++ [e])
      | .error err => (.error err, stored)
    | _ => (.error ⟨"unsupported query"⟩, stored)

/-! ## The loop, one iteration at a time -/

section LoopSteps

variable {σ : Type} (client : FaunaClient σ) (decode : Decoder) (pageSize targetUser : Int)

theorem loop_zero (s : σ) (cursorPos : Option Value) (edges0 : List Edge) :
    getUserGroupsLoop client decode pageSize targetUser 0 s cursorPos edges0 =
      { outcome := .outOfFuel, log := [], cursorPos := cursorPos, trace := [], store := s } :=
  rfl

theorem loop_query_error (fuel : Nat) (s : σ) (cursorPos : Option Value) (edges0 : List Edge)
    (err : GoError)
    (h : (client.Query s (pageQuery pageSize targetUser cursorPos)).1 = .error err) :
    getUserGroupsLoop client decode pageSize targetUser (fuel + 1) s cursorPos edges0 =
      { outcome := .panicked err, log := [], cursorPos := cursorPos,
        trace := [(pageQuery pageSize targetUser cursorPos, .error err)],
        store := (client.Query s (pageQuery pageSize targetUser cursorPos)).2 } := by
  simp only [getUserGroupsLoop, h]

theorem loop_decode_error (fuel : Nat) (s : σ) (cursorPos : Option Value) (edges0 : List Edge)
    (res : Value) (err : GoError)
    (h : (client.Query s (pageQuery pageSize targetUser cursorPos)).1 = .ok res)
    (hd : getData decode res edges0 = .error err) :
    getUserGroupsLoop client decode pageSize targetUser (fuel + 1) s cursorPos edges0 =
      { outcome := .panicked err, log := [], cursorPos := cursorPos,
        trace := [(pageQuery pageSize targetUser cursorPos, .ok res)],
        store := (client.Query s (pageQuery pageSize targetUser cursorPos)).2 } := by
  simp only [getUserGroupsLoop, h, hd]

theorem loop_last_page (fuel : Nat) (s : σ) (cursorPos : Option Value) (edges0 : List Edge)
    (res : Value) (edges : List Edge) (err : GoError)
    (h : (client.Query s (pageQuery pageSize targetUser cursorPos)).1 = .ok res)
    (hd : getData decode res edges0 = .ok edges)
    (ha : res.At "after" = .error err) :
    getUserGroupsLoop client decode pageSize targetUser (fuel + 1) s cursorPos edges0 =
      { outcome := .returned, log := edges, cursorPos := none,
        trace := [(pageQuery pageSize targetUser cursorPos, .ok res)],
        store := (client.Query s (pageQuery pageSize targetUser cursorPos)).2 } := by
  simp only [getUserGroupsLoop, h, hd, ha]

theorem loop_next_page (fuel : Nat) (s : σ) (cursorPos : Option Value) (edges0 : List Edge)
    (res : Value) (edges : List Edge) (c : Value)
    (h : (client.Query s (pageQuery pageSize targetUser cursorPos)).1 = .ok res)
    (hd : getData decode res edges0 = .ok edges)
    (ha : res.At "after" = .ok c) :
    getUserGroupsLoop client decode pageSize targetUser (fuel + 1) s cursorPos edges0 =
      { getUserGroupsLoop client decode pageSize targetUser fuel
          (client.Query s (pageQuery pageSize targetUser cursorPos)).2 (some c) edges with
        log := edges ++ (getUserGroupsLoop client decode pageSize targetUser fuel
          (client.Query s (pageQuery pageSize targetUser cursorPos)).2 (some c) edges).log,
        trace := (pageQuery pageSize targetUser cursorPos, .ok res) ::
          (getUserGroupsLoop client decode pageSize targetUser fuel
            (client.Query s (pageQuery pageSize targetUser cursorPos)).2 (some c) edges).trace } := by
  simp only [getUserGroupsLoop, h, hd, ha]

end LoopSteps

/-! ## Traversal against a faithful store -/

theorem faithful_answer {σ : Type} {client : FaunaClient σ}
    {decode : Decoder} {targetUser : Int} {entries : List Edge}
    {pos : Value → Option Nat} {n : Nat}
    (hf : FaithfulStore client decode targetUser entries pos n)
    (s : σ) (cursorPos : Option Value) (p : Nat) (hc : CursorAt pos cursorPos p) :
    ∃ res, (client.Query s (pageQuery n targetUser cursorPos)).1 = .ok res ∧
      PageAt decode entries pos p n res := by
  cases cursorPos with
  | none =>
    have hp : p = 0 := hc
    subst hp
    exact hf.first s
  | some c => exact hf.next s c p hc

theorem pagesLeft_last {len p n : Nat} (hn : 0 < n) (h : len ≤ p + n) : pagesLeft len p n = 1 := by
  unfold pagesLeft
  have h2 : (len - p + n - 1) / n ≤ 1 := by
    have : (len - p + n - 1) / n < 2 := by
      rw [Nat.div_lt_iff_lt_mul hn]
      omega
    omega
  omega

theorem pagesLeft_more {len p n : Nat} (hn : 0 < n) (h : p + n < len) :
    pagesLeft len p n = 1 + pagesLeft len (p + n) n := by
  unfold pagesLeft
  have e : len - p + n - 1 = (len - (p + n) + n - 1) + n := by omega
  have h1 : 1 ≤ (len - (p + n) + n - 1) / n := by
    rw [Nat.one_le_div_iff hn]
    omega
  rw [e, Nat.add_div_right _ hn]
  omega

theorem loop_faithful {σ : Type} {client : FaunaClient σ}
    {decode : Decoder} {targetUser : Int} {entries : List Edge}
    {pos : Value → Option Nat} {n : Nat}
    (hf : FaithfulStore client decode targetUser entries pos n) (hn : 0 < n) :
    ∀ (fuel p : Nat) (s : σ) (cursorPos : Option Value) (edges0 : List Edge),
      CursorAt pos cursorPos p → entries.length ≤ p + fuel * n → 0 < fuel →
      (getUserGroupsLoop client decode n targetUser fuel s cursorPos edges0).outcome = .returned ∧
      (getUserGroupsLoop client decode n targetUser fuel s cursorPos edges0).log =
        entries.drop p ∧
      (getUserGroupsLoop client decode n targetUser fuel s cursorPos edges0).cursorPos = none ∧
      (getUserGroupsLoop client decode n targetUser fuel s cursorPos edges0).trace.length =
        pagesLeft entries.length p n := by
  intro fuel
  induction fuel with
  | zero => intro p s cursorPos _ _ _ h0; omega
  | succ fuel ih =>
    intro p s cursorPos edges0 hc hlen _
    obtain ⟨res, hq, hdata, hmore, hlast⟩ := faithful_answer hf s cursorPos p hc
    have hd := hdata edges0
    by_cases hrem : p + n < entries.length
    · obtain ⟨c, ha, hpos⟩ := hmore hrem
      have hfuel : 0 < fuel := by
        rcases Nat.eq_zero_or_pos fuel with h0 | h0
        · subst h0; simp at hlen; omega
        · exact h0
      have hlen2 : entries.length ≤ (p + n) + fuel * n := by
        have : (fuel + 1) * n = fuel * n + n := Nat.succ_mul fuel n
        omega
      obtain ⟨io, il, ic, it⟩ := ih (p + n)
        (client.Query s (pageQuery n targetUser cursorPos)).2 (some c)
        ((entries.drop p).take n) hpos hlen2 hfuel
      rw [loop_next_page client decode n targetUser fuel s cursorPos edges0 res _ c hq hd ha]
      refine ⟨io, ?_, ic, ?_⟩
      · show (entries.drop p).take n ++ _ = _
        rw [il, ← List.drop_drop, List.take_append_drop]
      · show (_ :: _).length = _
        rw [List.length_cons, it, pagesLeft_more hn hrem]
        omega
    · have hle : entries.length ≤ p + n := Nat.le_of_not_lt hrem
      have ha : ∃ err, res.At "after" = .error err := by
        cases h : res.At "after" with
        | error err => exact ⟨err, rfl⟩
        | ok c => exact absurd h (hlast hle c)
      obtain ⟨err, ha⟩ := ha
      rw [loop_last_page client decode n targetUser fuel s cursorPos edges0 res _ err hq hd ha]
      refine ⟨rfl, ?_, rfl, ?_⟩
      · show (entries.drop p).take n = _
        apply List.take_of_length_le
        rw [List.length_drop]
        omega
      · show 1 = _
        rw [pagesLeft_last hn hle]

/-! ## The offset store is faithful -/

theorem decodeEntries_toValue (es : List Edge) :
    decodeEntries (es.map Edge.toValue) = .ok es := by
  induction es with
  | nil => rfl
  | cons e rest ih =>
    have he : decodeEdge e.toValue = .ok e := by
      cases e
      rfl
    simp only [List.map_cons, decodeEntries, he, ih]

theorem cursorOffset_long (k : Nat) : cursorOffset (.LongV (k : Int)) = some k := by
  simp [cursorOffset]

theorem pageFrom_pageAt (entries : List Edge) (p n : Nat) :
    PageAt decodeEdges entries cursorOffset p n (pageFrom entries p n) := by
  unfold PageAt pageFrom
  by_cases h : p + n < entries.length
  · rw [if_pos h]
    refine ⟨fun prev => ?_, fun _ => ⟨_, rfl, cursorOffset_long (p + n)⟩,
      fun h2 => absurd h (by omega)⟩
    show decodeEdges (.ArrayV _) prev = _
    exact decodeEntries_toValue _
  · rw [if_neg h]
    refine ⟨fun prev => ?_, fun h2 => absurd h2 h, fun _ c hc => ?_⟩
    · show decodeEdges (.ArrayV _) prev = _
      exact decodeEntries_toValue _
    · have : (pageValue (.ArrayV (((entries.drop p).take n).map Edge.toValue)) none).At "after"
          = .error ⟨"object key not found"⟩ := rfl
      rw [this] at hc
      cases hc

theorem edgeStore_faithful (allEdges : List Edge) (targetUser : Int) (n : Nat) :
    FaithfulStore (edgeStore allEdges) decodeEdges targetUser
      (allEdges.filter (fun e => e.User_ID = targetUser)) cursorOffset n where
  first := fun _ => ⟨_, rfl, by
    have : ((n : Int)).toNat = n := Int.toNat_ofNat n
    rw [this]
    exact pageFrom_pageAt _ 0 n⟩
  next := fun s c p hc => by
    refine ⟨pageFrom (allEdges.filter (fun e => e.User_ID = targetUser)) p n, ?_,
      pageFrom_pageAt _ p n⟩
    show (match cursorOffset c with
      | some p => ((Except.ok (pageFrom (allEdges.filter (fun e => e.User_ID = targetUser)) p
          ((n : Int)).toNat) : QueryResult), s)
      | none => (.error ⟨"invalid cursor"⟩, s)).1 = _
    rw [hc, Int.toNat_ofNat]

/-! ## What the trace of any run looks like -/

section TraceShape

variable {σ : Type} (client : FaunaClient σ) (decode : Decoder) (pageSize targetUser : Int)

/-- The four ways one iteration of the loop goes. -/
theorem loop_succ_cases (fuel : Nat) (s : σ) (cursorPos : Option Value) (edges0 : List Edge) :
    (∃ err, getUserGroupsLoop client decode pageSize targetUser (fuel + 1) s cursorPos edges0 =
        { outcome := .panicked err, log := [], cursorPos := cursorPos,
          trace := [(pageQuery pageSize targetUser cursorPos, .error err)],
          store := (client.Query s (pageQuery pageSize targetUser cursorPos)).2 }) ∨
    (∃ res err, getData decode res edges0 = .error err ∧
      getUserGroupsLoop client decode pageSize targetUser (fuel + 1) s cursorPos edges0 =
        { outcome := .panicked err, log := [], cursorPos := cursorPos,
          trace := [(pageQuery pageSize targetUser cursorPos, .ok res)],
          store := (client.Query s (pageQuery pageSize targetUser cursorPos)).2 }) ∨
    (∃ res edges err, getData decode res edges0 = .ok edges ∧ res.At "after" = .error err ∧
      getUserGroupsLoop client decode pageSize targetUser (fuel + 1) s cursorPos edges0 =
        { outcome := .returned, log := edges, cursorPos := none,
          trace := [(pageQuery pageSize targetUser cursorPos, .ok res)],
          store := (client.Query s (pageQuery pageSize targetUser cursorPos)).2 }) ∨
    (∃ res edges c s2, getData decode res edges0 = .ok edges ∧ res.At "after" = .ok c ∧
      getUserGroupsLoop client decode pageSize targetUser (fuel + 1) s cursorPos edges0 =
        { getUserGroupsLoop client decode pageSize targetUser fuel s2 (some c) edges with
          log := edges ++
            (getUserGroupsLoop client decode pageSize targetUser fuel s2 (some c) edges).log,
          trace := (pageQuery pageSize targetUser cursorPos, .ok res) ::
            (getUserGroupsLoop client decode pageSize targetUser fuel s2 (some c) edges).trace }) := by
  cases hq : (client.Query s (pageQuery pageSize targetUser cursorPos)).1 with
  | error err =>
    exact Or.inl ⟨err,
      loop_query_error client decode pageSize targetUser fuel s cursorPos edges0 err hq⟩
  | ok res =>
    cases hd : getData decode res edges0 with
    | error err =>
      exact Or.inr (Or.inl ⟨res, err, hd,
        loop_decode_error client decode pageSize targetUser fuel s cursorPos edges0 res err hq hd⟩)
    | ok edges =>
      cases ha : res.At "after" with
      | error err =>
        exact Or.inr (Or.inr (Or.inl ⟨res, edges, err, hd, ha,
          loop_last_page client decode pageSize targetUser fuel s cursorPos edges0 res edges err
            hq hd ha⟩))
      | ok c =>
        exact Or.inr (Or.inr (Or.inr ⟨res, edges, c, _, hd, ha,
          loop_next_page client decode pageSize targetUser fuel s cursorPos edges0 res edges c
            hq hd ha⟩))

/-- The loop never issues more queries than it has fuel. -/
theorem loop_trace_length_le (fuel : Nat) :
    ∀ (s : σ) (cursorPos : Option Value) (edges0 : List Edge),
    (getUserGroupsLoop client decode pageSize targetUser fuel s cursorPos edges0).trace.length
      ≤ fuel := by
  induction fuel with
  | zero => intro s cursorPos edges0; simp [loop_zero]
  | succ fuel ih =>
    intro s cursorPos edges0
    rcases loop_succ_cases client decode pageSize targetUser fuel s cursorPos edges0 with
      ⟨err, h⟩ | ⟨res, err, _, h⟩ | ⟨res, edges, err, _, _, h⟩ | ⟨res, edges, c, s2, _, _, h⟩
    · rw [h]; simp
    · rw [h]; simp
    · rw [h]; simp
    · rw [h]
      have := ih s2 (some c) edges
      simp only [List.length_cons]
      omega

/-- Cursor chain: query 0 carries the cursor the loop starts with, every query
is a page query, and query `k + 1` carries the `after` value of answer `k`. -/
theorem loop_trace_chain (fuel : Nat) :
    ∀ (s : σ) (cursorPos : Option Value) (edges0 : List Edge) (k : Nat)
    (q : Expr) (r : QueryResult),
    (getUserGroupsLoop client decode pageSize targetUser fuel s cursorPos edges0).trace[k]? =
      some (q, r) →
    (k = 0 → q = pageQuery pageSize targetUser cursorPos) ∧
    (∃ cur, q = pageQuery pageSize targetUser cur) ∧
    (∀ q2 r2,
      (getUserGroupsLoop client decode pageSize targetUser fuel s cursorPos edges0).trace[k + 1]? =
        some (q2, r2) →
      ∃ res c, r = .ok res ∧ res.At "after" = .ok c ∧
        q2 = pageQuery pageSize targetUser (some c)) := by
  induction fuel with
  | zero => intro s cursorPos edges0 k q r h; simp [loop_zero] at h
  | succ fuel ih =>
    intro s cursorPos edges0 k q r
    rcases loop_succ_cases client decode pageSize targetUser fuel s cursorPos edges0 with
      ⟨err, h⟩ | ⟨res, err, _, h⟩ | ⟨res, edges, err, _, _, h⟩ | ⟨res, edges, c, s2, _, ha, h⟩
    · rw [h]
      intro hk
      cases k with
      | zero =>
        simp only [List.getElem?_cons_zero, Option.some.injEq, Prod.mk.injEq] at hk
        exact ⟨fun _ => hk.1.symm, ⟨cursorPos, hk.1.symm⟩, fun q2 r2 h2 => by simp at h2⟩
      | succ k => simp at hk
    · rw [h]
      intro hk
      cases k with
      | zero =>
        simp only [List.getElem?_cons_zero, Option.some.injEq, Prod.mk.injEq] at hk
        exact ⟨fun _ => hk.1.symm, ⟨cursorPos, hk.1.symm⟩, fun q2 r2 h2 => by simp at h2⟩
      | succ k => simp at hk
    · rw [h]
      intro hk
      cases k with
      | zero =>
        simp only [List.getElem?_cons_zero, Option.some.injEq, Prod.mk.injEq] at hk
        exact ⟨fun _ => hk.1.symm, ⟨cursorPos, hk.1.symm⟩, fun q2 r2 h2 => by simp at h2⟩
      | succ k => simp at hk
    · rw [h]
      intro hk
      cases k with
      | zero =>
        simp only [List.getElem?_cons_zero, Option.some.injEq, Prod.mk.injEq] at hk
        refine ⟨fun _ => hk.1.symm, ⟨cursorPos, hk.1.symm⟩, fun q2 r2 h2 => ?_⟩
        simp only [List.getElem?_cons_succ] at h2
        exact ⟨res, c, hk.2.symm, ha, (ih s2 (some c) edges 0 q2 r2 h2).1 rfl⟩
      | succ k =>
        simp only [List.getElem?_cons_succ] at hk
        obtain ⟨_, h2, h3⟩ := ih s2 (some c) edges k q r hk
        refine ⟨fun h0 => absurd h0 (Nat.succ_ne_zero k), h2, fun q2 r2 hq2 => ?_⟩
        simp only [List.getElem?_cons_succ] at hq2
        exact h3 q2 r2 hq2

end TraceShape

theorem pageQuery_cursor_inj {pageSize targetUser : Int} {a b : Option Value}
    (h : pageQuery pageSize targetUser a = pageQuery pageSize targetUser b) : a = b := by
  cases a <;> cases b <;> simp_all [pageQuery, paginateSized]

section TraceEnds

variable {σ : Type} (client : FaunaClient σ) (decode : Decoder) (pageSize targetUser : Int)

/-- A failed query is the last one: the run panics with its error, and the
failed query carried the cursor that the local variable still holds. -/
theorem loop_query_failure (fuel : Nat) :
    ∀ (s : σ) (cursorPos : Option Value) (edges0 : List Edge) (k : Nat)
    (q : Expr) (err : GoError),
    (getUserGroupsLoop client decode pageSize targetUser fuel s cursorPos edges0).trace[k]? =
      some (q, .error err) →
    (getUserGroupsLoop client decode pageSize targetUser fuel s cursorPos edges0).outcome =
      .panicked err ∧
    (getUserGroupsLoop client decode pageSize targetUser fuel s cursorPos edges0).trace.length
      = k + 1 ∧
    q = pageQuery pageSize targetUser
      (getUserGroupsLoop client decode pageSize targetUser fuel s cursorPos edges0).cursorPos := by
  induction fuel with
  | zero => intro s cursorPos edges0 k q err h; simp [loop_zero] at h
  | succ fuel ih =>
    intro s cursorPos edges0 k q err
    rcases loop_succ_cases client decode pageSize targetUser fuel s cursorPos edges0 with
      ⟨err0, h⟩ | ⟨res0, err0, hd, h⟩ | ⟨res0, edges, err0, hd, ha, h⟩ |
      ⟨res0, edges, c, s2, hd, ha, h⟩
    · rw [h]
      intro hk
      cases k with
      | zero =>
        simp only [List.getElem?_cons_zero, Option.some.injEq, Prod.mk.injEq,
          Except.error.injEq] at hk
        obtain ⟨hq, he⟩ := hk
        subst he
        exact ⟨rfl, rfl, hq.symm⟩
      | succ k => simp at hk
    · rw [h]
      intro hk
      cases k with
      | zero => simp at hk
      | succ k => simp at hk
    · rw [h]
      intro hk
      cases k with
      | zero => simp at hk
      | succ k => simp at hk
    · rw [h]
      intro hk
      cases k with
      | zero => simp at hk
      | succ k =>
        simp only [List.getElem?_cons_succ] at hk
        obtain ⟨h1, h2, h3⟩ := ih s2 (some c) edges k q err hk
        exact ⟨h1, by simp only [List.length_cons]; omega, h3⟩

end TraceEnds

/-! ## Completeness, empty match and page count -/

/-- C1 (completeness): against a store that answers every page request
faithfully for a list `entries` of matching entries, and for every positive
page size, the traversal with more fuel than entries returns normally and has
printed exactly `entries`, each once and in index order; this holds in
particular for `getUserGroups`, whose page size is 16. -/
theorem getUserGroups_complete {σ : Type} (client : FaunaClient σ)
    (decode : Decoder) (targetUser : Int) (entries : List Edge)
    (pos : Value → Option Nat) (pageSize : Nat) (hsize : 0 < pageSize)
    (hf : FaithfulStore client decode targetUser entries pos pageSize)
    (fuel : Nat) (hfuel : entries.length < fuel) (s : σ) :
    (getUserGroupsSized client decode pageSize targetUser fuel s).outcome = .returned ∧
    (getUserGroupsSized client decode pageSize targetUser fuel s).log = entries ∧
    (pageSize = 16 →
      (getUserGroups client decode targetUser fuel s).outcome = .returned ∧
      (getUserGroups client decode targetUser fuel s).log = entries) := by
  have hlen : entries.length ≤ 0 + fuel * pageSize := by
    have : fuel * 1 ≤ fuel * pageSize := Nat.mul_le_mul_left fuel hsize
    omega
  obtain ⟨ho, hl, _, _⟩ :=
    loop_faithful hf hsize fuel 0 s none [] rfl hlen (by omega)
  refine ⟨ho, by simpa using hl, fun h16 => ?_⟩
  subst h16
  exact ⟨ho, by simpa using hl⟩

/-- Witness of C1: the two edges of user 6 among `sampleEdges`, page size 1. -/
theorem getUserGroups_complete_witness :
    (getUserGroupsSized (edgeStore sampleEdges) decodeEdges (1 : Nat) 6 3 ()).outcome = .returned ∧
    (getUserGroupsSized (edgeStore sampleEdges) decodeEdges (1 : Nat) 6 3 ()).log
      = [⟨6, 1⟩, ⟨6, 4⟩] ∧
    ((1 : Nat) = 16 →
      (getUserGroups (edgeStore sampleEdges) decodeEdges 6 3 ()).outcome = .returned ∧
      (getUserGroups (edgeStore sampleEdges) decodeEdges 6 3 ()).log = [⟨6, 1⟩, ⟨6, 4⟩]) :=
  getUserGroups_complete (edgeStore sampleEdges) decodeEdges 6 [⟨6, 1⟩, ⟨6, 4⟩] cursorOffset 1
    (by decide) (edgeStore_faithful sampleEdges 6 1) 3 (by decide) ()

/-- C4 (empty match): when the first page has empty data (decoded into the
still empty slice) and no `after` cursor, `getUserGroups` with any fuel prints
nothing, returns normally without a
panic, issues that one query only, and holds no cursor at the end. -/
theorem getUserGroups_empty_match {σ : Type} (client : FaunaClient σ)
    (decode : Decoder) (targetUser : Int) (fuel : Nat) (s : σ)
    (res : Value) (hfuel : 0 < fuel)
    (hq : (client.Query s (.Map (paginateCustomers "edges_user_groups" targetUser none)
      (.Lambda "x" (.Select "data" (.Get (.Var "x")))))).1 = .ok res)
    (hd : getData decode res [] = .ok [])
    (ha : ∀ c, res.At "after" ≠ .ok c) :
    (getUserGroups client decode targetUser fuel s).outcome = .returned ∧
    (getUserGroups client decode targetUser fuel s).log = [] ∧
    (getUserGroups client decode targetUser fuel s).cursorPos = none ∧
    (getUserGroups client decode targetUser fuel s).trace.length = 1 := by
  obtain ⟨fuel, rfl⟩ : ∃ f, fuel = f + 1 := ⟨fuel - 1, by omega⟩
  have hno : ∃ err, res.At "after" = .error err := by
    cases h : res.At "after" with
    | error err => exact ⟨err, rfl⟩
    | ok c => exact absurd h (ha c)
  obtain ⟨err, hno⟩ := hno
  have hrun := loop_last_page client decode 16 targetUser fuel s none [] res [] err hq hd hno
  unfold getUserGroups getUserGroupsSized
  rw [hrun]
  exact ⟨rfl, rfl, rfl, rfl⟩

/-- Witness of C4: user 7 has no edge among `sampleEdges`. -/
theorem getUserGroups_empty_match_witness :
    (getUserGroups (edgeStore sampleEdges) decodeEdges 7 1 ()).outcome = .returned ∧
    (getUserGroups (edgeStore sampleEdges) decodeEdges 7 1 ()).log = [] ∧
    (getUserGroups (edgeStore sampleEdges) decodeEdges 7 1 ()).cursorPos = none ∧
    (getUserGroups (edgeStore sampleEdges) decodeEdges 7 1 ()).trace.length = 1 :=
  getUserGroups_empty_match (edgeStore sampleEdges) decodeEdges 7 1 () (pageFrom [] 0 16)
    (by decide) rfl rfl (fun c h => by cases h)

/-- C5 as stated fails for a user without edges: the store is faithful for the
empty list of matching entries, `ceil(0/16)` is 0, and the traversal issues one
page request. -/
theorem getUserGroups_page_count_zero_edges :
    FaithfulStore (edgeStore sampleEdges) decodeEdges 7
      (sampleEdges.filter (fun e => e.User_ID = 7)) cursorOffset 16 ∧
    (sampleEdges.filter (fun e => e.User_ID = 7)).length = 0 ∧
    ((sampleEdges.filter (fun e => e.User_ID = 7)).length + 15) / 16 = 0 ∧
    (getUserGroups (edgeStore sampleEdges) decodeEdges 7 5 ()).outcome = .returned ∧
    (getUserGroups (edgeStore sampleEdges) decodeEdges 7 5 ()).trace.length = 1 :=
  ⟨edgeStore_faithful sampleEdges 7 16, by decide, by decide, by decide, by decide⟩

/-- C5 (amended): against a faithful store whose entries for the target user
are the stored edges of that user in some order, `getUserGroups` prints the
same multiset of group ids as the full scan filtered by the user, in
`ceil(count/16)` page requests when `count ≥ 1` and in one request when
`count = 0`. -/
theorem getUserGroups_scenario_pages {σ : Type} (client : FaunaClient σ)
    (decode : Decoder) (targetUser : Int)
    (allEdges entries : List Edge) (pos : Value → Option Nat)
    (hperm : entries.Perm (allEdges.filter (fun e => e.User_ID = targetUser)))
    (hf : FaithfulStore client decode targetUser entries pos 16)
    (fuel : Nat) (hfuel : entries.length < fuel) (s : σ) :
    (getUserGroups client decode targetUser fuel s).outcome = .returned ∧
    ((getUserGroups client decode targetUser fuel s).log.map (fun e => e.Group_ID)).Perm
      ((allEdges.filter (fun e => e.User_ID = targetUser)).map (fun e => e.Group_ID)) ∧
    (getUserGroups client decode targetUser fuel s).trace.length =
      (if (allEdges.filter (fun e => e.User_ID = targetUser)).length = 0 then 1
       else ((allEdges.filter (fun e => e.User_ID = targetUser)).length + 15) / 16) := by
  have hlen : entries.length ≤ 0 + fuel * 16 := by omega
  obtain ⟨ho, hl, _, ht⟩ :=
    loop_faithful hf (by decide) fuel 0 s none [] rfl hlen (by omega)
  have hcount := hperm.length_eq
  refine ⟨ho, ?_, ?_⟩
  · show (List.map _ (getUserGroupsLoop client decode 16 targetUser fuel s none []).log).Perm _
    have hl2 : (getUserGroupsLoop client decode 16 targetUser fuel s none []).log = entries := by
      simpa using hl
    rw [hl2]
    exact hperm.map _
  · show (getUserGroupsLoop client decode 16 targetUser fuel s none []).trace.length = _
    have ht2 : (getUserGroupsLoop client decode 16 targetUser fuel s none []).trace.length
        = pagesLeft entries.length 0 16 := ht
    rw [ht2, ← hcount]
    unfold pagesLeft
    split_ifs with h0 <;> omega

/-- Witness of C5 (amended): user 6 has two edges among `sampleEdges`, read in
one page. -/
theorem getUserGroups_scenario_pages_witness :
    (getUserGroups (edgeStore sampleEdges) decodeEdges 6 3 ()).outcome = .returned ∧
    ((getUserGroups (edgeStore sampleEdges) decodeEdges 6 3 ()).log.map
      (fun e => e.Group_ID)).Perm
      ((sampleEdges.filter (fun e => e.User_ID = 6)).map (fun e => e.Group_ID)) ∧
    (getUserGroups (edgeStore sampleEdges) decodeEdges 6 3 ()).trace.length =
      (if (sampleEdges.filter (fun e => e.User_ID = 6)).length = 0 then 1
       else ((sampleEdges.filter (fun e => e.User_ID = 6)).length + 15) / 16) :=
  getUserGroups_scenario_pages (edgeStore sampleEdges) decodeEdges 6 sampleEdges
    (sampleEdges.filter (fun e => e.User_ID = 6)) cursorOffset (List.Perm.refl _)
    (edgeStore_faithful sampleEdges 6 16) 3 (by decide) ()

/-! ## Termination signal and cursor pass-through -/

/-- C3 (opaque cursor pass-through): in every run of `getUserGroups`, request
`k` is `paginateCustomers` on the index `edges_user_groups` with the target
user as match term and size 16, mapped to the data of each entry; request 0 is
built from the `nil` cursor and has no After clause; and the After clause of
request `k + 1` is the `after` value of answer `k`, unchanged. -/
theorem getUserGroups_cursor_passthrough {σ : Type} (client : FaunaClient σ)
    (decode : Decoder) (targetUser : Int) (fuel : Nat) (s : σ)
    (k : Nat) (q : Expr) (r : QueryResult)
    (hk : (getUserGroups client decode targetUser fuel s).trace[k]? = some (q, r)) :
    (∃ cur, q = .Map (paginateCustomers "edges_user_groups" targetUser cur)
        (.Lambda "x" (.Select "data" (.Get (.Var "x")))) ∧
      paginateCustomers "edges_user_groups" targetUser cur =
        .Paginate (.MatchTerm (.Index "edges_user_groups") (.Lit (.LongV targetUser)))
          { after := cur, size := some 16 }) ∧
    (k = 0 → q = .Map (paginateCustomers "edges_user_groups" targetUser none)
        (.Lambda "x" (.Select "data" (.Get (.Var "x")))) ∧
      paginateCustomers "edges_user_groups" targetUser none =
        .Paginate (.MatchTerm (.Index "edges_user_groups") (.Lit (.LongV targetUser)))
          { after := none, size := some 16 }) ∧
    (∀ q2 r2, (getUserGroups client decode targetUser fuel s).trace[k + 1]? = some (q2, r2) →
      ∃ res c, r = .ok res ∧ res.At "after" = .ok c ∧
        q2 = .Map (paginateCustomers "edges_user_groups" targetUser (some c))
          (.Lambda "x" (.Select "data" (.Get (.Var "x")))) ∧
        paginateCustomers "edges_user_groups" targetUser (some c) =
          .Paginate (.MatchTerm (.Index "edges_user_groups") (.Lit (.LongV targetUser)))
            { after := some c, size := some 16 }) := by
  obtain ⟨h1, ⟨cur, h2⟩, h3⟩ := loop_trace_chain client decode 16 targetUser fuel s none [] k q r hk
  refine ⟨⟨cur, h2, ?_⟩, fun h0 => ⟨h1 h0, rfl⟩, fun q2 r2 hq2 => ?_⟩
  · cases cur <;> rfl
  · obtain ⟨res, c, hr, ha, hq⟩ := h3 q2 r2 hq2
    exact ⟨res, c, hr, ha, hq, rfl⟩

/-- Witness of C3: request 0 of the run on a script of two pages, the first of
which carries the cursor `"c1"`. -/
theorem getUserGroups_cursor_passthrough_witness :
    (∃ cur, pageQuery 16 6 none = .Map (paginateCustomers "edges_user_groups" 6 cur)
        (.Lambda "x" (.Select "data" (.Get (.Var "x")))) ∧
      paginateCustomers "edges_user_groups" 6 cur =
        .Paginate (.MatchTerm (.Index "edges_user_groups") (.Lit (.LongV 6)))
          { after := cur, size := some 16 }) ∧
    (0 = 0 → pageQuery 16 6 none = .Map (paginateCustomers "edges_user_groups" 6 none)
        (.Lambda "x" (.Select "data" (.Get (.Var "x")))) ∧
      paginateCustomers "edges_user_groups" 6 none =
        .Paginate (.MatchTerm (.Index "edges_user_groups") (.Lit (.LongV 6)))
          { after := none, size := some 16 }) ∧
    (∀ q2 r2,
      (getUserGroups scriptedClient decodeEdges 6 5
        [.ok (onePage ⟨6, 1⟩ (.StringV "c1")), .ok emptyPage]).trace[0 + 1]? = some (q2, r2) →
      ∃ res c, (Except.ok (onePage ⟨6, 1⟩ (.StringV "c1")) : QueryResult) = .ok res ∧
        res.At "after" = .ok c ∧
        q2 = .Map (paginateCustomers "edges_user_groups" 6 (some c))
          (.Lambda "x" (.Select "data" (.Get (.Var "x")))) ∧
        paginateCustomers "edges_user_groups" 6 (some c) =
          .Paginate (.MatchTerm (.Index "edges_user_groups") (.Lit (.LongV 6)))
            { after := some c, size := some 16 }) :=
  getUserGroups_cursor_passthrough scriptedClient decodeEdges 6 5
    [.ok (onePage ⟨6, 1⟩ (.StringV "c1")), .ok emptyPage] 0 (pageQuery 16 6 none)
    (.ok (onePage ⟨6, 1⟩ (.StringV "c1"))) rfl

/-! ## Failures: store errors and pages that do not decode -/

/-- C9 as stated fails: two runs obtain different cursors (16 and 32) from
their first page and then get the same store error on the second request; both
panic with that error alone, so that what the caller receives is the same in
both runs and no reading of it yields the last cursor of each. -/
theorem getUserGroups_panic_without_cursor :
    (getUserGroups scriptedClient decodeEdges 6 5
      [.ok (onePage ⟨6, 1⟩ (.LongV 16)), .error ⟨"timeout"⟩]).outcome = .panicked ⟨"timeout"⟩ ∧
    (getUserGroups scriptedClient decodeEdges 6 5
      [.ok (onePage ⟨6, 1⟩ (.LongV 32)), .error ⟨"timeout"⟩]).outcome = .panicked ⟨"timeout"⟩ ∧
    (getUserGroups scriptedClient decodeEdges 6 5
      [.ok (onePage ⟨6, 1⟩ (.LongV 16)), .error ⟨"timeout"⟩]).cursorPos = some (.LongV 16) ∧
    (getUserGroups scriptedClient decodeEdges 6 5
      [.ok (onePage ⟨6, 1⟩ (.LongV 32)), .error ⟨"timeout"⟩]).cursorPos = some (.LongV 32) ∧
    ¬ ∃ recover : Outcome → Option Value,
      recover (getUserGroups scriptedClient decodeEdges 6 5
        [.ok (onePage ⟨6, 1⟩ (.LongV 16)), .error ⟨"timeout"⟩]).outcome = some (.LongV 16) ∧
      recover (getUserGroups scriptedClient decodeEdges 6 5
        [.ok (onePage ⟨6, 1⟩ (.LongV 32)), .error ⟨"timeout"⟩]).outcome = some (.LongV 32) := by
  refine ⟨rfl, rfl, rfl, rfl, ?_⟩
  rintro ⟨recover, hA, hB⟩
  have eA : (getUserGroups scriptedClient decodeEdges 6 5
      [.ok (onePage ⟨6, 1⟩ (.LongV 16)), .error ⟨"timeout"⟩]).outcome = .panicked ⟨"timeout"⟩ := rfl
  have eB : (getUserGroups scriptedClient decodeEdges 6 5
      [.ok (onePage ⟨6, 1⟩ (.LongV 32)), .error ⟨"timeout"⟩]).outcome = .panicked ⟨"timeout"⟩ := rfl
  rw [eA] at hA
  rw [eB, hA] at hB
  simp at hB

/-- C9 (amended): when request `k` fails after `k ≥ 1` pages were fetched,
`getUserGroups` issues no further request (no retry) and ends by panicking with
the store's error, which is distinct from normal completion; the `after` value
of the last page is the cursor of the failed request and the value of the local
`cursorPos` at the panic, and is not part of what is surfaced. -/
theorem getUserGroups_store_failure_panics {σ : Type} (client : FaunaClient σ)
    (decode : Decoder) (targetUser : Int) (fuel : Nat) (s : σ)
    (k : Nat) (q : Expr) (err : GoError) (hpos : 1 ≤ k)
    (hk : (getUserGroups client decode targetUser fuel s).trace[k]? = some (q, .error err)) :
    (getUserGroups client decode targetUser fuel s).outcome = .panicked err ∧
    (getUserGroups client decode targetUser fuel s).outcome ≠ .returned ∧
    (getUserGroups client decode targetUser fuel s).trace.length = k + 1 ∧
    ∃ q0 res0 c,
      (getUserGroups client decode targetUser fuel s).trace[k - 1]? = some (q0, .ok res0) ∧
      res0.At "after" = .ok c ∧
      q = .Map (paginateCustomers "edges_user_groups" targetUser (some c))
        (.Lambda "x" (.Select "data" (.Get (.Var "x")))) ∧
      (getUserGroups client decode targetUser fuel s).cursorPos = some c := by
  obtain ⟨ho, hl, hq⟩ := loop_query_failure client decode 16 targetUser fuel s none [] k q err hk
  refine ⟨ho, ?_, hl, ?_⟩
  · intro h
    have h2 : (getUserGroupsLoop client decode 16 targetUser fuel s none []).outcome = .returned := h
    rw [ho] at h2
    cases h2
  · obtain ⟨j, rfl⟩ : ∃ j, k = j + 1 := ⟨k - 1, by omega⟩
    have hj : j < (getUserGroupsLoop client decode 16 targetUser fuel s none []).trace.length := by
      have : (getUserGroupsLoop client decode 16 targetUser fuel s none []).trace.length = j + 1 + 1 :=
        hl
      omega
    cases hprev : (getUserGroupsLoop client decode 16 targetUser fuel s none []).trace[j]? with
    | none =>
      rw [List.getElem?_eq_none_iff] at hprev
      omega
    | some qr =>
      obtain ⟨q0, r0⟩ := qr
      obtain ⟨_, _, hnext⟩ :=
        loop_trace_chain client decode 16 targetUser fuel s none [] j q0 r0 hprev
      obtain ⟨res0, c, hr0, ha, hqc⟩ := hnext q (.error err) hk
      subst hr0
      refine ⟨q0, res0, c, ?_, ha, hqc, ?_⟩
      · simpa using hprev
      · have : pageQuery 16 targetUser (some c) = pageQuery 16 targetUser
            (getUserGroupsLoop client decode 16 targetUser fuel s none []).cursorPos := by
          rw [← hqc]
          exact hq
        exact (pageQuery_cursor_inj this).symm

/-- Witness of C9 (amended): one page with the cursor 16, then a timeout. -/
theorem getUserGroups_store_failure_panics_witness :
    (getUserGroups scriptedClient decodeEdges 6 5
      [.ok (onePage ⟨6, 1⟩ (.LongV 16)), .error ⟨"timeout"⟩]).outcome = .panicked ⟨"timeout"⟩ ∧
    (getUserGroups scriptedClient decodeEdges 6 5
      [.ok (onePage ⟨6, 1⟩ (.LongV 16)), .error ⟨"timeout"⟩]).outcome ≠ .returned ∧
    (getUserGroups scriptedClient decodeEdges 6 5
      [.ok (onePage ⟨6, 1⟩ (.LongV 16)), .error ⟨"timeout"⟩]).trace.length = 1 + 1 ∧
    ∃ q0 res0 c,
      (getUserGroups scriptedClient decodeEdges 6 5
        [.ok (onePage ⟨6, 1⟩ (.LongV 16)), .error ⟨"timeout"⟩]).trace[1 - 1]?
          = some (q0, .ok res0) ∧
      res0.At "after" = .ok c ∧
      pageQuery 16 6 (some (.LongV 16)) =
        .Map (paginateCustomers "edges_user_groups" 6 (some c))
          (.Lambda "x" (.Select "data" (.Get (.Var "x")))) ∧
      (getUserGroups scriptedClient decodeEdges 6 5
        [.ok (onePage ⟨6, 1⟩ (.LongV 16)), .error ⟨"timeout"⟩]).cursorPos = some c :=
  getUserGroups_store_failure_panics scriptedClient decodeEdges 6 5
    [.ok (onePage ⟨6, 1⟩ (.LongV 16)), .error ⟨"timeout"⟩] 1
    (pageQuery 16 6 (some (.LongV 16))) ⟨"timeout"⟩ (by decide) rfl

/-- C6 (defect): the specification of `edge_user_group` built by `createIndexes`
is unique and has ONE term, the three-segment path `data.user_id.group_id`, not
the two paths `data.user_id` and `data.group_id`; no edge document has a value
at that path, so every edge has the same key tuple whatever its pair. -/
theorem createIndexes_edge_user_group_one_path :
    ∃ spec, indexNamed "edge_user_group" = some spec ∧
      spec.unique = true ∧
      spec.terms = [["data", "user_id", "group_id"]] ∧
      spec.terms ≠ [["data", "user_id"], ["data", "group_id"]] ∧
      (∀ e : Edge, spec.keyOf (edgeDocument e) = [none]) ∧
      spec.keyOf (edgeDocument ⟨1, 2⟩) = spec.keyOf (edgeDocument ⟨3, 4⟩) :=
  ⟨{ name := "edge_user_group", source := "edges", unique := true,
     terms := [["data", "user_id", "group_id"]] },
   rfl, rfl, rfl, by decide, fun _ => rfl, rfl⟩

theorem createEdgesLoop_returns {σ : Type} (client : FaunaClient σ) (rnd : Nat → Nat)
    (numUsers numGroups : Int) (hu : 0 < numUsers) (hg : 0 < numGroups) (remaining : Nat) :
    ∀ (i : Nat) (s : σ),
      (createEdgesLoop client rnd numUsers numGroups remaining i s).outcome = .returned ∧
      (createEdgesLoop client rnd numUsers numGroups remaining i s).queries.length = remaining := by
  induction remaining with
  | zero => intro i s; exact ⟨rfl, rfl⟩
  | succ remaining ih =>
    intro i s
    have hu2 : ¬ numUsers ≤ 0 := by omega
    have hg2 : ¬ numGroups ≤ 0 := by omega
    simp only [createEdgesLoop, if_neg hu2, if_neg hg2, List.length_cons]
    exact ⟨(ih _ _).1, by rw [(ih _ _).2]⟩

/-- C7 (defect): `createEdges` discards both results of `client.Query`.  On a
store that rejects a second edge with the pair (1, 1), the writer is told
nothing: the call returns normally with the rejection only in the trace, and
the first edge stays stored.  With the arguments of `main` (100 users, 10
groups) the call returns normally for every store and every number of edges. -/
theorem createEdges_drops_store_failure :
    (createEdges uniqueEdgeStore (fun _ => 0) 2 100 10 []).queries =
      [(createEdgeQuery ⟨1, 1⟩, .ok (edgeDocument ⟨1, 1⟩)),
       (createEdgeQuery ⟨1, 1⟩, .error ⟨"instance not unique"⟩)] ∧
    (createEdges uniqueEdgeStore (fun _ => 0) 2 100 10 []).outcome = .returned ∧
    (createEdges uniqueEdgeStore (fun _ => 0) 2 100 10 []).store = [⟨1, 1⟩] ∧
    (∀ (σ : Type) (client : FaunaClient σ) (rnd : Nat → Nat) (numEdges : Nat) (s : σ),
      (createEdges client rnd numEdges 100 10 s).outcome = .returned ∧
      (createEdges client rnd numEdges 100 10 s).queries.length = numEdges) := by
  refine ⟨rfl, rfl, rfl, fun σ client rnd numEdges s => ?_⟩
  have h0 : ¬ ((numEdges : Int) < 0) := by omega
  simp only [createEdges, if_neg h0, Int.toNat_ofNat]
  exact createEdgesLoop_returns client rnd 100 10 (by decide) (by decide) numEdges 0 s

theorem createUsers_fold_users (l : List Nat) :
    ∀ st : UsersLoop, (l.foldl createUsersStep st).users = st.users := by
  induction l with
  | nil => intro st; rfl
  | cons i rest ih =>
    intro st
    rw [List.foldl_cons, ih]
    rfl

theorem createGroups_fold_groups (l : List Nat) :
    ∀ st : GroupsLoop, (l.foldl createGroupsStep st).groups = st.groups := by
  induction l with
  | nil => intro st; rfl
  | cons i rest ih =>
    intro st
    rw [List.foldl_cons, ih]
    rfl

/-- C8 (defect): the body of the `range` loop assigns to the loop variable, a
copy of the element, so the slice keeps the zero records of `make`: for every
`n` the `n` records that `createUsers` submits all have ID 0, and so do those of
`createGroups`; for `n = 2` the submitted IDs are `[0, 0]`, neither distinct nor
`[1, 2]`. -/
theorem createUsers_createGroups_submit_zero_ids (n : Nat) :
    createUsersRecords n = List.replicate n ⟨0⟩ ∧
    createGroupsRecords n = List.replicate n ⟨0⟩ ∧
    (createUsersRecords 2).map (fun u => u.ID) = [0, 0] ∧
    (createGroupsRecords 2).map (fun g => g.ID) = [0, 0] ∧
    ¬ ((createUsersRecords 2).map (fun u => u.ID)).Nodup ∧
    (createUsers scriptedClient 2 [.ok .NullV]).queries =
      [(.Map (.Lit (.ArrayV [.ObjectV [("id", .LongV 0)], .ObjectV [("id", .LongV 0)]]))
          (.Lambda "user" (.Create (.Class "users") (.Obj [("data", .Var "user")]))),
        .ok .NullV)] := by
  refine ⟨?_, ?_, rfl, rfl, by decide, rfl⟩
  · unfold createUsersRecords
    exact createUsers_fold_users _ _
  · unfold createGroupsRecords
    exact createGroups_fold_groups _ _

end IndexPaginate
